import Mathlib

/-!
Shallow embedding of the layer-store subsystem of src/layer_store.py:
the three LayerStore variants (SetLayerStore, AdditiveLayerStore,
SequenceLayerStore), their add / erase / get_color / special operations,
and concrete example stores used to evaluate the code on the inputs the
specification talks about.  Colours are plain integer triples because the
Python code performs unclamped machine-integer arithmetic on them.
-/

/-- RGB colour triple as handled by the Python code: plain (unbounded)
integers; no clamping is performed anywhere in the store code. -/
abbrev Color := Int × Int × Int

/-- Signature of a layer's apply attribute:
(start colour, timestamp, x, y) ↦ colour. -/
abbrev ApplyF := Color → Int → Int → Int → Color

/-- Static data of a layer as used by SetLayerStore: its stable catalog
index and its name.  The mutable apply attribute of the catalog object
with index i is kept in the heap component of SetLayerStore, because
SetLayerStore.special (src/layer_store.py lines 113-119) reassigns that
attribute in place on the shared object.  Modelled from the spec: the
Layer class itself lives in the external layer_util module, outside src/;
section 3 of the spec gives its fields (index, name, apply, color) and
section 6 says layers come from a fixed catalog with stable indices, so
object identity is represented here by the index. -/
structure SetLayer where
  index : Nat
  name : String
deriving DecidableEq

/-- State of SetLayerStore (src/layer_store.py lines 54-136) together with
the shared catalog heap.  layer is self.layer; layers is the ArrayR(20)
slot array self.layers, modelled as an index-keyed map from slot number to
the layer object stored there (ArrayR lives in the external
data_structures package; all indices used by the code are in range);
heap i is the current apply attribute of the catalog layer object with
index i. -/
structure SetLayerStore where
  layer : Option SetLayer
  layers : Nat → Option SetLayer
  heap : Nat → ApplyF

/-- Freshly constructed SetLayerStore (src/layer_store.py lines 54-59)
over a given catalog heap of apply attributes. -/
def emptySet (h : Nat → ApplyF) : SetLayerStore :=
  { layer := none, layers := fun _ => none, heap := h }

/-- SetLayerStore.add (src/layer_store.py lines 61-76).  The Python
argument may be None, hence the Option parameter; a None argument is
rejected with result false. -/
def setAdd (s : SetLayerStore) (l : Option SetLayer) : SetLayerStore × Bool :=
  match l with
  | some L =>
      ({ s with layers := Function.update s.layers L.index (some L), layer := some L }, true)
  | none => (s, false)

/-- SetLayerStore.erase (src/layer_store.py lines 78-93): if the slot at
layer.index is occupied, clear it and set the current layer to None. -/
def setErase (s : SetLayerStore) (L : SetLayer) : SetLayerStore × Bool :=
  match s.layers L.index with
  | some _ =>
      ({ s with layers := Function.update s.layers L.index none, layer := none }, true)
  | none => (s, false)

/-- SetLayerStore.get_color (src/layer_store.py lines 95-111): apply the
current layer's (possibly rewrapped) apply attribute, or return the start
colour unchanged. -/
def setGetColor (s : SetLayerStore) (start : Color) (timestamp x y : Int) : Color :=
  match s.layer with
  | some L => s.heap L.index start timestamp x y
  | none => start

/-- SetLayerStore.invert_color (src/layer_store.py lines 121-136): wrap an
apply function so that each output channel c becomes 255 - c. -/
def invertColorWrap (f : ApplyF) : ApplyF :=
  fun start timestamp x y =>
    ((255 : Int) - (f start timestamp x y).1,
     (255 : Int) - (f start timestamp x y).2.1,
     (255 : Int) - (f start timestamp x y).2.2)

/-- Indices of the catalog objects found in the occupied slots, in slot
order: the objects visited by the loop for i in range(len(self.layers)) of
SetLayerStore.special. -/
def specialKeys (slots : Nat → Option SetLayer) : List Nat :=
  (List.range 20).filterMap (fun i => (slots i).map (fun L => L.index))

/-- Sequential in-place rewrapping of apply attributes: for each referenced
catalog object in turn, its heap entry is replaced by the inverting wrapper
around its previous value. -/
def applyAll (ks : List Nat) (h : Nat → ApplyF) : Nat → ApplyF :=
  ks.foldl (fun g k => Function.update g k (invertColorWrap (g k))) h

/-- SetLayerStore.special (src/layer_store.py lines 113-119): for every
non-null slot, reassign the stored layer object's apply attribute to the
inverting wrapper around its previous value.  Only the heap changes; the
current layer and the slots are untouched. -/
def setSpecial (s : SetLayerStore) : SetLayerStore :=
  { s with heap := applyAll (specialKeys s.layers) s.heap }

/-- One mutating operation on a SetLayerStore. -/
inductive SetOp where
  | addOp (l : Option SetLayer)
  | eraseOp (L : SetLayer)
  | specialOp
deriving DecidableEq

/-- Effect of one operation on the store state. -/
def setStep (s : SetLayerStore) (op : SetOp) : SetLayerStore :=
  match op with
  | .addOp l => (setAdd s l).1
  | .eraseOp L => (setErase s L).1
  | .specialOp => setSpecial s

/-- Run a sequence of operations left to right. -/
def setRun (ops : List SetOp) (s : SetLayerStore) : SetLayerStore :=
  ops.foldl setStep s

/-- Recognizer for the special operation. -/
def SetOp.isSpecialOp : SetOp → Bool
  | .specialOp => true
  | _ => false

/-- Number of occupied slots of the ArrayR(20) slot array. -/
def countOcc (s : SetLayerStore) : Nat :=
  (List.range 20).countP (fun i => (s.layers i).isSome)

/-- Whether the slot at the current layer's index is occupied (vacuously
true when no layer is current). -/
def currentSlotMatches (s : SetLayerStore) : Bool :=
  match s.layer with
  | some L => (s.layers L.index).isSome
  | none => true

/-- The slot invariant exactly as the specification states it: the current
layer is set if and only if exactly one slot of the slot array is
non-null, namely the slot at the current layer's index. -/
def setClaimInv (s : SetLayerStore) : Prop :=
  s.layer.isSome = true ↔ (countOcc s = 1 ∧ currentSlotMatches s = true)

/-- The part of the slot invariant that the code actually maintains:
whenever the current layer is set, the slot at its index holds that very
layer.  Other slots may be occupied as well. -/
def SetInv (s : SetLayerStore) : Prop :=
  ∀ L, s.layer = some L → s.layers L.index = some L

/-- Concrete catalog heap used in the concrete examples: every layer's
apply attribute initially returns the start colour unchanged. -/
def h0std : Nat → ApplyF := fun _ => fun start _ _ _ => start

/-- Concrete catalog layer of index 0. -/
def layRed : SetLayer := { index := 0, name := "red" }

/-- Concrete catalog layer of index 1. -/
def layGreen : SetLayer := { index := 1, name := "green" }

/-- Concrete catalog layer of index 5, never added in the examples. -/
def layFive : SetLayer := { index := 5, name := "absent" }

/-- A SetLayerStore holding the single layer layRed. -/
def demoSetAdded : SetLayerStore := (setAdd (emptySet h0std) (some layRed)).1

/-- The SetLayerStore reached from empty by add(layRed); add(layGreen). -/
def c9state : SetLayerStore :=
  setRun [SetOp.addOp (some layRed), SetOp.addOp (some layGreen)] (emptySet h0std)

/-- Layer data used by AdditiveLayerStore: a name and the fixed colour
triple read by get_color (line 170 of src/layer_store.py). -/
structure AddLayer where
  name : String
  color : Color
deriving DecidableEq

/-- State of AdditiveLayerStore (src/layer_store.py lines 137-203): the
parallel ArrayStack (head of the list = top of the stack) and
CircularQueue (head of the list = front of the queue).  The two ADTs live
in the external data_structures package and are modelled as standard
LIFO / FIFO lists; their fixed capacity of 100 is never approached in any
example and is not modelled.  Elements are Option AddLayer because add
accepts None. -/
structure AddStore where
  stack : List (Option AddLayer)
  queue : List (Option AddLayer)
deriving DecidableEq

/-- Freshly constructed AdditiveLayerStore (lines 145-148). -/
def emptyAdd : AddStore := { stack := [], queue := [] }

/-- AdditiveLayerStore.add (lines 150-153): push on the stack and append
to the queue. -/
def addAdd (s : AddStore) (L : AddLayer) : AddStore :=
  { stack := some L :: s.stack, queue := s.queue ++ [some L] }

/-- Repeated add calls, in list order. -/
def addMany (ls : List AddLayer) (s : AddStore) : AddStore :=
  ls.foldl addAdd s

/-- n iterations of self.queue.append(self.queue.serve()) (lines 161-162);
the queue is non-empty throughout in every call site. -/
def rotL : Nat → List (Option AddLayer) → List (Option AddLayer)
  | 0, q => q
  | n + 1, [] => rotL n []
  | n + 1, x :: xs => rotL n (xs ++ [x])

/-- AdditiveLayerStore.special (lines 155-162).  self.stack.top() raises
an exception on an empty ArrayStack, modelled as the none result.  On a
non-empty stack: pop-then-push leaves the stack unchanged, the top (most
recently added) layer is appended to the queue, and the queue is then
served-and-appended len(queue) - 1 times. -/
def addSpecial (s : AddStore) : Option AddStore :=
  match s.stack with
  | [] => none
  | top :: rest =>
      let q1 := s.queue ++ [top]
      some { stack := top :: rest, queue := rotL (q1.length - 1) q1 }

/-- First loop of AdditiveLayerStore.erase (lines 183-190): the counter i
starts at 0 and the fuel starts at len(stack).  Each element popped before
position index is appended to temp (a FIFO queue) in pop order; at
i = index the element is popped and discarded and the loop breaks.
Returns the remaining stack and temp. -/
def eraseLoop1 (index : Nat) :
    Nat → Nat → List (Option AddLayer) → List (Option AddLayer) →
      List (Option AddLayer) × List (Option AddLayer)
  | _, 0, st, temp => (st, temp)
  | _, _ + 1, [], temp => ([], temp)
  | i, fuel + 1, top :: rest, temp =>
    if i = index then (rest, temp)
    else eraseLoop1 index (i + 1) fuel rest (temp ++ [top])

/-- Restoring loop of erase (lines 191-193):
while not temp_queue.is_empty(): self.stack.push(temp_queue.serve()).
This drains temp completely. -/
def restorePush (temp st : List (Option AddLayer)) : List (Option AddLayer) :=
  temp.foldl (fun acc x => x :: acc) st

/-- Second loop of erase (lines 194-200), on the queue: serve each
element and put it back at the rear, unless its position equals index, in
which case it is dropped and the loop breaks. -/
def eraseLoop2 (index : Nat) :
    Nat → Nat → List (Option AddLayer) → List (Option AddLayer)
  | _, 0, q => q
  | _, _ + 1, [] => []
  | i, fuel + 1, front :: rest =>
    if i = index then rest
    else eraseLoop2 index (i + 1) fuel (rest ++ [front])

/-- AdditiveLayerStore.erase (lines 178-203).  The final while loop of the
source (lines 201-203) appends from temp_queue to the queue, but
temp_queue was already fully drained by the stack-restoring loop, so it
never moves anything.  The Python method returns None, not a boolean. -/
def addErase (s : AddStore) (index : Nat) : AddStore :=
  let p := eraseLoop1 index 0 s.stack.length s.stack []
  { stack := restorePush p.2 p.1, queue := eraseLoop2 index 0 s.queue.length s.queue }

/-- Channel-wise addition of colour triples. -/
def cadd (a b : Color) : Color := (a.1 + b.1, a.2.1 + b.2.1, a.2.2 + b.2.2)

/-- Contribution of one stack element in get_color (line 170):
layer.color for a real layer, (0, 0, 0) for a None entry. -/
def layerContrib : Option AddLayer → Color
  | some L => L.color
  | none => ((0 : Int), (0 : Int), (0 : Int))

/-- Accumulation loop of AdditiveLayerStore.get_color (lines 166-173):
pop every stack element, adding its contribution channel-wise.  The second
while loop of the source (lines 174-175) pushes everything back and
restores the stack exactly, so only the accumulated colour matters. -/
def colorLoop : List (Option AddLayer) → Color → Color
  | [], c => c
  | l :: rest, c => colorLoop rest (cadd c (layerContrib l))

/-- AdditiveLayerStore.get_color (lines 164-176); the x, y, z arguments
are ignored by the source. -/
def addGetColor (s : AddStore) (bg : Color) (_x _y _z : Int) : Color :=
  colorLoop s.stack bg

/-- Channel-wise sum of the stored elements' fixed colour triples, phrased
after the specification's words, for comparison with addGetColor. -/
def specColorSum (st : List (Option AddLayer)) : Color :=
  (st.map layerContrib).foldl cadd ((0 : Int), (0 : Int), (0 : Int))

/-- Concrete additive layer A with colour (1, 0, 0). -/
def layAddA : AddLayer := { name := "A", color := ((1 : Int), (0 : Int), (0 : Int)) }

/-- Concrete additive layer B with colour (0, 1, 0). -/
def layAddB : AddLayer := { name := "B", color := ((0 : Int), (1 : Int), (0 : Int)) }

/-- Concrete additive layer C with colour (0, 0, 1). -/
def layAddC : AddLayer := { name := "C", color := ((0 : Int), (0 : Int), (1 : Int)) }

/-- The AdditiveLayerStore reached by add(A); add(B). -/
def demoAB : AddStore := addMany [layAddA, layAddB] emptyAdd

/-- The AdditiveLayerStore reached by add(A); add(B); add(C). -/
def demoABC : AddStore := addMany [layAddA, layAddB, layAddC] emptyAdd

/-- Layer data as consumed by SequenceLayerStore.  Modelled from the spec:
the Layer class lives in the external layer_util module (not under src/);
the attributes start, timestamp and get_color that
SequenceLayerStore.get_color reads (lines 243-253) are the per-layer
activation thresholds and rendered colour described in section 4.3 of the
spec.  index is the stable catalog index used for ordering and identity,
name the catalog name used for the median selection. -/
structure SeqLayer where
  index : Nat
  name : String
  start : Int
  timestamp : Int
  getColor : Int → Int → Color

/-- State of SequenceLayerStore (src/layer_store.py lines 205-293): the
ArraySortedList of stored layers, kept in ascending index order.  The
sorted-list ADT lives in the external data_structures package and is
modelled as a sorted list; its capacity of 100 is not modelled. -/
structure SeqStore where
  layers : List SeqLayer

/-- Freshly constructed SequenceLayerStore (lines 215-222). -/
def emptySeq : SeqStore := { layers := [] }

/-- Insertion maintaining ascending index order (the ArraySortedList add
used by SequenceLayerStore.add). -/
def insertByIndex (L : SeqLayer) : List SeqLayer → List SeqLayer
  | [] => [L]
  | M :: rest => if L.index ≤ M.index then L :: M :: rest else M :: insertByIndex L rest

/-- SequenceLayerStore.add (lines 224-235): reject a layer already present
(identity modelled by catalog index), otherwise insert in index order. -/
def seqAdd (s : SeqStore) (L : SeqLayer) : SeqStore × Bool :=
  if s.layers.any (fun M => M.index == L.index) then (s, false)
  else ({ layers := insertByIndex L s.layers }, true)

/-- Repeated add calls, in list order. -/
def seqAddMany (ls : List SeqLayer) (s : SeqStore) : SeqStore :=
  ls.foldl (fun st L => (seqAdd st L).1) s

/-- SequenceLayerStore.erase (lines 258-268): remove the stored layer with
this identity if present, reporting whether anything changed. -/
def seqErase (s : SeqStore) (L : SeqLayer) : SeqStore × Bool :=
  if s.layers.any (fun M => M.index == L.index) then
    ({ layers := s.layers.eraseP (fun M => M.index == L.index) }, true)
  else (s, false)

/-- Lexicographic comparison of character lists, modelling Python string
comparison. -/
def charListLe : List Char → List Char → Bool
  | [], _ => true
  | _ :: _, [] => false
  | a :: as, b :: bs => if a < b then true else if b < a then false else charListLe as bs

/-- Lexicographic comparison of names. -/
def nameLe (a b : String) : Bool := charListLe a.data b.data

/-- Insertion step of the stable sort by name. -/
def insertByName (L : SeqLayer) : List SeqLayer → List SeqLayer
  | [] => [L]
  | M :: rest => if nameLe L.name M.name then L :: M :: rest else M :: insertByName L rest

/-- Sort by name (the queue sort with key layer.name in special). -/
def sortByName (ls : List SeqLayer) : List SeqLayer :=
  ls.foldr insertByName []

/-- The median-collecting while loop of SequenceLayerStore.special
(lines 284-288): serve one element into the result and then discard the
next, until the queue is empty.  It therefore keeps the elements at even
positions of the sorted order, not just the median. -/
def alternates : List SeqLayer → List SeqLayer
  | [] => []
  | [x] => [x]
  | x :: _ :: rest => x :: alternates rest

/-- SequenceLayerStore.special (lines 270-293), modelled charitably: in
the source the container names CircularQueueQueue and List are undefined
(every call raises NameError) and CircularQueue has no sort method; this
embedding gives the statements their evident intended meaning.  Copy the
stored layers into a queue in iteration order, sort by name, keep every
second element starting with the first, sort those again, and erase each
of them through the normal erase path. -/
def seqSpecial (s : SeqStore) : SeqStore :=
  (sortByName (alternates (sortByName s.layers))).foldl (fun st L => (seqErase st L).1) s

/-- Pop loop of SequenceLayerStore.get_color (lines 250-254), walking the
stack of valid layers from top to bottom and switching colour whenever a
layer's rendered colour differs from the current one. -/
def popLoop (x y : Int) : List SeqLayer → SeqLayer → Color → Color
  | [], _, color => color
  | L :: rest, cur, color =>
    if L.getColor x y ≠ cur.getColor x y then popLoop x y rest L (L.getColor x y)
    else popLoop x y rest cur color

/-- SequenceLayerStore.get_color (lines 237-256).  The for loop pushes
every layer passing the activation test onto a stack, keeping the last
such layer in curr_layer; if no layer passes, curr_layer is still None and
the attribute access curr_layer.get_color on line 249 raises
AttributeError, modelled as the none result. -/
def seqGetColor (s : SeqStore) (start timestamp x y : Int) : Option Color :=
  let valid := s.layers.filter
    (fun L => decide (L.timestamp ≤ timestamp) && decide (L.start ≤ start))
  match valid.getLast? with
  | none => none
  | some cur0 => some (popLoop x y valid.reverse cur0 (cur0.getColor x y))

/-- Rendered colour shared by all the concrete sequence layers. -/
def zeroColor : Int → Int → Color := fun _ _ => ((0 : Int), (0 : Int), (0 : Int))

/-- Concrete sequence layer named b, catalog index 0. -/
def seqLayB : SeqLayer :=
  { index := 0, name := "b", start := 0, timestamp := 0, getColor := zeroColor }

/-- Concrete sequence layer named a, catalog index 1. -/
def seqLayA : SeqLayer :=
  { index := 1, name := "a", start := 0, timestamp := 0, getColor := zeroColor }

/-- Concrete sequence layer named e, catalog index 2. -/
def seqLayE : SeqLayer :=
  { index := 2, name := "e", start := 0, timestamp := 0, getColor := zeroColor }

/-- Concrete sequence layer named c, catalog index 3. -/
def seqLayC : SeqLayer :=
  { index := 3, name := "c", start := 0, timestamp := 0, getColor := zeroColor }

/-- Concrete sequence layer named d, catalog index 4. -/
def seqLayD : SeqLayer :=
  { index := 4, name := "d", start := 0, timestamp := 0, getColor := zeroColor }

/-- The SequenceLayerStore reached by adding the five layers with names
b, a, e, c, d (the example of the spec). -/
def demoSeq5 : SeqStore :=
  seqAddMany [seqLayB, seqLayA, seqLayE, seqLayC, seqLayD] emptySeq

/-- A sequence layer whose timestamp threshold 5 fails at timestamp 0. -/
def seqLayLate : SeqLayer :=
  { index := 0, name := "late", start := 0, timestamp := 5, getColor := zeroColor }

/-- A store whose single layer fails the activation test at timestamp 0. -/
def demoSeqLate : SeqStore := (seqAdd emptySeq seqLayLate).1

/-- A sequence layer of index 9, never added in the examples. -/
def seqLayAbsent : SeqLayer :=
  { index := 9, name := "z", start := 0, timestamp := 0, getColor := zeroColor }

/-- A SequenceLayerStore holding the single layer seqLayB. -/
def demoSeqOne : SeqStore := (seqAdd emptySeq seqLayB).1

/-- Multiplicity of a key in a list of slot keys. -/
def keyCount (k : Nat) : List Nat → Nat
  | [] => 0
  | k0 :: rest => (if k0 = k then 1 else 0) + keyCount k rest

/-! Helper lemmas. -/

/-- The inverting wrapper is an involution: wrapping twice gives back the
original apply function, because 255 - (255 - c) = c on integers. -/
lemma invert_invert (f : ApplyF) : invertColorWrap (invertColorWrap f) = f := by
  funext s t x y
  have h : ∀ c : Color,
      ((255 : Int) - ((255 : Int) - c.1), (255 : Int) - ((255 : Int) - c.2.1),
        (255 : Int) - ((255 : Int) - c.2.2)) = c := by
    intro c
    obtain ⟨a, b, d⟩ := c
    simp only [Prod.mk.injEq]
    refine ⟨by omega, by omega, by omega⟩
  exact h (f s t x y)

/-- Applying the wrapper n times and then n more times is the identity. -/
lemma iterInvert_cancel :
    ∀ (n : Nat) (f : ApplyF), invertColorWrap^[n] (invertColorWrap^[n] f) = f := by
  intro n
  induction n with
  | zero => intro f; simp
  | succ m ih =>
    intro f
    rw [Function.iterate_succ_apply]
    rw [Function.iterate_succ_apply']
    rw [invert_invert]
    exact ih f

/-- The heap produced by a pass of update operations wraps each key as many
times as it occurs in the key list. -/
lemma applyAll_count :
    ∀ (ks : List Nat) (h : Nat → ApplyF) (k : Nat),
      applyAll ks h k = invertColorWrap^[keyCount k ks] (h k) := by
  intro ks
  induction ks with
  | nil => intro h k; rfl
  | cons k0 rest ih =>
    intro h k
    have hstep : applyAll (k0 :: rest) h =
        applyAll rest (Function.update h k0 (invertColorWrap (h k0))) := rfl
    rw [hstep, ih]
    by_cases hk : k0 = k
    · subst hk
      rw [Function.update_same]
      rw [← Function.iterate_succ_apply]
      simp [keyCount, Nat.add_comm]
    · rw [Function.update_noteq (fun hc => hk hc.symm)]
      simp [keyCount, hk]

/-- Every single operation preserves the maintained slot invariant. -/
lemma setStep_inv (s : SetLayerStore) (op : SetOp) (h : SetInv s) : SetInv (setStep s op) := by
  cases op with
  | addOp l =>
    cases l with
    | none => exact h
    | some L =>
      intro M hM
      have hLM : L = M := by
        have : (some L : Option SetLayer) = some M := hM
        exact Option.some.inj this
      subst hLM
      show Function.update s.layers L.index (some L) L.index = some L
      exact Function.update_same ..
  | eraseOp L =>
    cases hsl : s.layers L.index with
    | some M =>
      intro N hN
      have : (none : Option SetLayer) = some N := by
        have hred : (setStep s (SetOp.eraseOp L)).layer = none := by
          simp [setStep, setErase, hsl]
        rw [hred] at hN
        exact hN
      exact absurd this (by simp)
    | none =>
      have hred : setStep s (SetOp.eraseOp L) = s := by
        simp [setStep, setErase, hsl]
      rw [hred]
      exact h
  | specialOp => exact h

/-- Runs preserve the maintained slot invariant. -/
lemma setRun_inv (ops : List SetOp) : ∀ s, SetInv s → SetInv (setRun ops s) := by
  induction ops with
  | nil => intro s h; exact h
  | cons op rest ih => intro s h; exact ih (setStep s op) (setStep_inv s op h)

/-- A non-special operation leaves the catalog heap of apply attributes
untouched. -/
lemma setStep_heap (s : SetLayerStore) (op : SetOp) (h : op.isSpecialOp = false) :
    (setStep s op).heap = s.heap := by
  cases op with
  | addOp l => cases l <;> rfl
  | eraseOp L => cases hsl : s.layers L.index <;> simp [setStep, setErase, hsl]
  | specialOp => simp [SetOp.isSpecialOp] at h

/-- A run containing no special operation leaves the catalog heap
untouched. -/
lemma setRun_heap (ops : List SetOp) :
    (∀ op ∈ ops, op.isSpecialOp = false) → ∀ s, (setRun ops s).heap = s.heap := by
  induction ops with
  | nil => intro _ s; rfl
  | cons op rest ih =>
    intro hops s
    have h1 : op.isSpecialOp = false := hops op (by simp)
    have h2 : ∀ o ∈ rest, o.isSpecialOp = false := fun o ho => hops o (by simp [ho])
    have hstep : setRun (op :: rest) s = setRun rest (setStep s op) := rfl
    rw [hstep, ih h2 (setStep s op), setStep_heap s op h1]

/-- The accumulation loop of the additive get_color computes, channel by
channel, the start value plus the sum of the contributions. -/
lemma colorLoop_spec :
    ∀ (l : List (Option AddLayer)) (c : Color),
      colorLoop l c =
        (c.1 + (l.map (fun o => (layerContrib o).1)).sum,
         c.2.1 + (l.map (fun o => (layerContrib o).2.1)).sum,
         c.2.2 + (l.map (fun o => (layerContrib o).2.2)).sum) := by
  intro l
  induction l with
  | nil =>
    intro c
    obtain ⟨a, b, d⟩ := c
    simp [colorLoop]
  | cons o rest ih =>
    intro c
    rw [show colorLoop (o :: rest) c = colorLoop rest (cadd c (layerContrib o)) from rfl, ih]
    simp only [List.map_cons, List.sum_cons, cadd, Prod.mk.injEq]
    refine ⟨by ring, by ring, by ring⟩

/-- A left fold of channel-wise addition computes, channel by channel, the
start value plus the sum. -/
lemma foldl_cadd_spec :
    ∀ (cs : List Color) (a : Color),
      cs.foldl cadd a =
        (a.1 + (cs.map (fun c => c.1)).sum,
         a.2.1 + (cs.map (fun c => c.2.1)).sum,
         a.2.2 + (cs.map (fun c => c.2.2)).sum) := by
  intro cs
  induction cs with
  | nil =>
    intro a
    obtain ⟨p, q, r⟩ := a
    simp
  | cons c0 rest ih =>
    intro a
    rw [show (c0 :: rest).foldl cadd a = rest.foldl cadd (cadd a c0) from rfl, ih]
    simp only [List.map_cons, List.sum_cons, cadd, Prod.mk.injEq]
    refine ⟨by ring, by ring, by ring⟩

/-- After a run of add calls, the stack holds the added layers with the
most recent on top. -/
lemma addMany_stack :
    ∀ (ls : List AddLayer) (s : AddStore),
      (addMany ls s).stack = (ls.map some).reverse ++ s.stack := by
  intro ls
  induction ls with
  | nil => intro s; simp [addMany]
  | cons L rest ih =>
    intro s
    rw [show addMany (L :: rest) s = addMany rest (addAdd s L) from rfl, ih]
    simp [addAdd]

/-! Claim theorems. -/

/-- C1: the specification says SequenceLayerStore.special removes exactly
the layer with the lexicographically median name; on the five layers named
b, a, e, c, d it should remove only the layer named c, leaving four
layers.  Evaluating the embedded code on that input shows that special
instead erases every second layer of the name-sorted order (a, c and e),
leaving only the layers named b and d. -/
theorem seq_special_removes_alternates :
    ((seqSpecial demoSeq5).layers.map (fun L => L.name)) = ["b", "d"] := by decide

/-- C2: the specification says AdditiveLayerStore.special left-rotates the
add order by one, so after add(A); add(B); add(C) the order should be
[B, C, A] with no layer added or removed.  Evaluating the embedded code on
that input shows the stack is left unchanged at [A, B, C] while the queue
becomes the four-element [C, A, B, C]: a duplicate of the most recently
added layer is inserted and no rotation of the add order happens. -/
theorem additive_special_duplicates_top :
    addSpecial demoABC =
      some { stack := [some layAddC, some layAddB, some layAddA],
             queue := [some layAddC, some layAddA, some layAddB, some layAddC] } := by decide

/-- C3: the specification says SequenceLayerStore.get_color never fails
and returns the background unchanged when no layer passes the activation
test.  Evaluating the embedded code shows that on the empty store, and on
a store whose only layer fails the activation test, get_color reaches the
curr_layer = None dereference (modelled as none) instead of returning the
background. -/
theorem seq_get_color_none_crash :
    seqGetColor emptySeq 0 0 0 0 = none ∧ seqGetColor demoSeqLate 0 0 0 0 = none :=
  ⟨rfl, rfl⟩

/-- C4: the specification says AdditiveLayerStore.erase(0) removes the
earliest layer of the add order, so after add(A); add(B) only B's
contribution should remain.  Evaluating the embedded code shows erase(0)
pops A from the queue but pops the most recent layer B from the stack, and
get_color (which reads the stack) returns A's colour (1, 0, 0) rather than
B's (0, 1, 0). -/
theorem additive_erase_zero_removes_latest :
    addErase demoAB 0 = { stack := [some layAddA], queue := [some layAddB] } ∧
      addGetColor (addErase demoAB 0) ((0 : Int), (0 : Int), (0 : Int)) 0 0 0 =
        ((1 : Int), (0 : Int), (0 : Int)) ∧
      layAddB.color = ((0 : Int), (1 : Int), (0 : Int)) := by decide

/-- C5: the specification says special() on a freshly constructed store of
any variant does not raise and is a no-op.  This holds for SetLayerStore
and for the (charitably modelled) SequenceLayerStore, but
AdditiveLayerStore.special unconditionally calls self.stack.top(), which
raises on the empty stack, modelled as the none result. -/
theorem special_empty_additive_raises :
    addSpecial emptyAdd = none ∧
      setSpecial (emptySet h0std) = emptySet h0std ∧
      seqSpecial emptySeq = emptySeq :=
  ⟨rfl, rfl, rfl⟩

/-- C6: the specification says erasing an absent layer returns false and
leaves the store unchanged on all three variants.  SetLayerStore and
SequenceLayerStore do behave that way on the concrete stores below, but
AdditiveLayerStore.erase with the absent position 5 on a two-layer store
reverses the internal stack (and the Python method returns None rather
than a boolean). -/
theorem erase_absent_effects :
    addErase demoAB 5 =
        { stack := [some layAddA, some layAddB], queue := [some layAddA, some layAddB] } ∧
      demoAB = { stack := [some layAddB, some layAddA], queue := [some layAddA, some layAddB] } ∧
      setErase demoSetAdded layFive = (demoSetAdded, false) ∧
      seqErase demoSeqOne seqLayAbsent = (demoSeqOne, false) :=
  ⟨by decide, by decide, rfl, rfl⟩

/-- C7: AdditiveLayerStore.get_color returns the background plus the
channel-wise sum of the stored elements' fixed colour triples, and the
result of get_color after a sequence of add calls is invariant under
permuting the add calls. -/
theorem additive_get_color_sum_perm (s : AddStore) (adds adds2 : List AddLayer)
    (bg : Color) (x y z : Int) (hperm : adds.Perm adds2) :
    addGetColor s bg x y z = cadd bg (specColorSum s.stack) ∧
      addGetColor (addMany adds emptyAdd) bg x y z =
        addGetColor (addMany adds2 emptyAdd) bg x y z := by
  constructor
  · rw [show addGetColor s bg x y z = colorLoop s.stack bg from rfl, colorLoop_spec]
    rw [show specColorSum s.stack = (s.stack.map layerContrib).foldl cadd
      ((0 : Int), (0 : Int), (0 : Int)) from rfl, foldl_cadd_spec]
    simp only [cadd, List.map_map, Function.comp_def, Prod.mk.injEq]
    refine ⟨by ring, by ring, by ring⟩
  · rw [show addGetColor (addMany adds emptyAdd) bg x y z =
        colorLoop (addMany adds emptyAdd).stack bg from rfl,
      show addGetColor (addMany adds2 emptyAdd) bg x y z =
        colorLoop (addMany adds2 emptyAdd).stack bg from rfl,
      colorLoop_spec, colorLoop_spec, addMany_stack, addMany_stack]
    have hsum : ∀ (f : Option AddLayer → Int) (l : List AddLayer),
        (((l.map some).reverse ++ emptyAdd.stack).map f).sum =
          (l.map (fun L => f (some L))).sum := by
      intro f l
      rw [show emptyAdd.stack = ([] : List (Option AddLayer)) from rfl, List.append_nil]
      rw [List.map_reverse, List.sum_reverse, List.map_map]
      simp [Function.comp_def]
    rw [hsum, hsum, hsum, hsum, hsum, hsum]
    have hs1 := (hperm.map (fun L => (layerContrib (some L)).1)).sum_eq
    have hs2 := (hperm.map (fun L => (layerContrib (some L)).2.1)).sum_eq
    have hs3 := (hperm.map (fun L => (layerContrib (some L)).2.2)).sum_eq
    rw [hs1, hs2, hs3]

/-- Witness for C7: the sum equation on the concrete store add(A); add(B),
and equality of get_color after add(A); add(B) and after add(B); add(A). -/
theorem additive_get_color_sum_perm_witness :
    addGetColor demoAB ((0 : Int), (0 : Int), (0 : Int)) 0 0 0 =
        cadd ((0 : Int), (0 : Int), (0 : Int)) (specColorSum demoAB.stack) ∧
      addGetColor (addMany [layAddA, layAddB] emptyAdd) ((0 : Int), (0 : Int), (0 : Int)) 0 0 0 =
        addGetColor (addMany [layAddB, layAddA] emptyAdd)
          ((0 : Int), (0 : Int), (0 : Int)) 0 0 0 :=
  additive_get_color_sum_perm demoAB [layAddA, layAddB] [layAddB, layAddA]
    ((0 : Int), (0 : Int), (0 : Int)) 0 0 0 (List.Perm.swap layAddB layAddA [])

/-- C8: on every SetLayerStore state, two consecutive special() calls
leave the get_color output unchanged for every base colour and
timestamp/x/y context, because each occupied slot's apply attribute is
wrapped twice more and the 255 - channel inversion is self-inverse. -/
theorem set_special_twice_get_color_id (s : SetLayerStore) (start : Color)
    (timestamp x y : Int) :
    setGetColor (setSpecial (setSpecial s)) start timestamp x y =
      setGetColor s start timestamp x y := by
  cases hl : s.layer with
  | none =>
    have hl2 : (setSpecial (setSpecial s)).layer = none := hl
    simp [setGetColor, hl, hl2]
  | some L =>
    have hl2 : (setSpecial (setSpecial s)).layer = some L := hl
    have hkeys : specialKeys (setSpecial s).layers = specialKeys s.layers := rfl
    have hheap : (setSpecial (setSpecial s)).heap L.index = s.heap L.index := by
      show applyAll (specialKeys (setSpecial s).layers)
          (applyAll (specialKeys s.layers) s.heap) L.index = s.heap L.index
      rw [hkeys, applyAll_count, applyAll_count]
      exact iterInvert_cancel _ _
    simp only [setGetColor, hl, hl2]
    rw [hheap]

/-- C9 counterexample: after add(layRed); add(layGreen) from the empty
SetLayerStore the current layer is set while two slots are occupied, so
the claimed iff (current set iff exactly one non-null slot) fails. -/
theorem set_slot_invariant_violation : ¬ setClaimInv c9state := by
  intro h
  simp only [setClaimInv] at h
  have h1 : c9state.layer.isSome = true := rfl
  have h2 := (h.mp h1).1
  have h3 : countOcc c9state = 2 := rfl
  rw [h3] at h2
  exact absurd h2 (by decide)

/-- C9 amended: on every state reachable from the empty SetLayerStore by
add/erase/special operations, at most one layer is current (the layer
field holds at most one layer) and whenever it is set the slot at its
index holds that very layer; but other slots may be occupied as well, so
the claimed exactly-one-slot iff does not hold. -/
theorem set_slot_invariant_amended (h : Nat → ApplyF) (ops : List SetOp) :
    SetInv (setRun ops (emptySet h)) :=
  setRun_inv ops (emptySet h) (fun _ hL => nomatch hL)

/-- C10 counterexample: SetLayerStore.special reassigns the apply
attribute of the stored catalog layer in place: after add(layRed) the
heap entry of catalog index 0 maps (0,0,0) to (0,0,0) before special and
to (255,255,255) after, so a Layer field was modified. -/
theorem layer_apply_mutated_by_special :
    (setSpecial demoSetAdded).heap 0 ((0 : Int), (0 : Int), (0 : Int)) 0 0 0 ≠
      demoSetAdded.heap 0 ((0 : Int), (0 : Int), (0 : Int)) 0 0 0 := by
  decide

/-- C10 amended: no LayerStore operation other than SetLayerStore.special
modifies any Layer field: every run of add/erase operations on a
SetLayerStore leaves the catalog heap of apply attributes unchanged, and
special itself changes only apply attributes, never the current layer or
the slot contents (index, name and color are immutable by construction in
the embedding, matching the source, which only reads them). -/
theorem layer_immutability_amended (ops : List SetOp)
    (hops : ∀ op ∈ ops, op.isSpecialOp = false) (s : SetLayerStore) :
    (setRun ops s).heap = s.heap ∧
      (setSpecial s).layer = s.layer ∧ (setSpecial s).layers = s.layers :=
  ⟨setRun_heap ops hops s, rfl, rfl⟩

/-- Witness for C10 amended: the run add(layRed); erase(layRed) on the
empty store leaves the catalog heap unchanged. -/
theorem layer_immutability_amended_witness :
    (setRun [SetOp.addOp (some layRed), SetOp.eraseOp layRed] (emptySet h0std)).heap =
        (emptySet h0std).heap ∧
      (setSpecial (emptySet h0std)).layer = (emptySet h0std).layer ∧
      (setSpecial (emptySet h0std)).layers = (emptySet h0std).layers :=
  layer_immutability_amended [SetOp.addOp (some layRed), SetOp.eraseOp layRed]
    (by decide) (emptySet h0std)
